import Mathlib

/-!
Verification of the DNS reconciliation engine of a DDNS synchronisation
service.  The definitions below are a shallow embedding of the Python
source files `app/sync_engine.py`, `app/cloudflare_client.py` and
`app/ip_resolver.py`: pure functions are translated directly, and the
stateful orchestration (`sync_domains`) is modelled as a pure function
from the inputs plus a provider environment to a result that records both
the summary counters and every mutating call issued to the provider.
-/

namespace DDNS

/-! ### Python string primitives

Embeddings of the Python string operations used by the source:
`str.strip()` (trim ASCII whitespace from both ends), the `in` substring
test, and `str.endswith`. -/

/-- Whitespace predicate used by `pyStrip` (Python `str.strip()`). -/
def isWS (c : Char) : Bool := c.isWhitespace

/-- Strip whitespace from both ends of a character list. -/
def stripList (l : List Char) : List Char :=
  ((l.dropWhile isWS).reverse.dropWhile isWS).reverse

/-- Embedding of Python `s.strip()`. -/
def pyStrip (s : String) : String := ⟨stripList s.data⟩

/-- `containsSub needle hay` decides whether `needle` occurs as a
contiguous substring of `hay` (Python `needle in hay` on strings). -/
def containsSub (needle : List Char) : List Char → Bool
  | [] => needle.isEmpty
  | c :: t => needle.isPrefixOf (c :: t) || containsSub needle t

/-- Embedding of Python `needle in hay` for strings. -/
def pyIn (needle hay : String) : Bool := containsSub needle.data hay.data

/-- Embedding of Python `s.endswith(suffix)`. -/
def pyEndsWith (s suffix : String) : Bool := suffix.data.isSuffixOf s.data

/-- Embedding of Python `s.lower()` (characterwise lowercase). -/
def pyLower (s : String) : String := ⟨s.data.map Char.toLower⟩

/-! ### Data model

`app/cloudflare_client.py` and `app/sync_engine.py` operate on JSON
dictionaries; the fields actually read by the engine are `id`, `name`,
`content`, `proxied` and `comment`.  Fields read through `.get` with a
possible `None` are `Option`-valued. -/

/-- `MANAGED_MARKER` from `app/cloudflare_client.py` line 10. -/
def MANAGED_MARKER : String := "managed-by=ddns-traefik-sync"

/-- A DNS zone as read by the engine: `zone.get("id", "")` and
`zone.get("name", "")`, both strings (absent fields read as `""`). -/
structure Zone where
  id : String
  name : String
deriving DecidableEq, Repr

/-- `ZoneMatch` dataclass from `app/cloudflare_client.py` lines 17-20. -/
structure ZoneMatch where
  zone_id : String
  zone_name : String
deriving DecidableEq, Repr

/-- A DNS record as read by the engine.  `name`, `content`, `proxied` and
`comment` are read via `.get` and may be absent (`none`); `id` is read via
`record["id"]` (always present) or `record.get("id", "")`. -/
structure DNSRecord where
  id : String
  name : Option String
  content : Option String
  proxied : Option Bool
  comment : Option String
deriving DecidableEq, Repr

/-! ### Marker Composer — `_compose_comment`, `app/sync_engine.py` 19-25 -/

/-- Embedding of `_compose_comment`:
```
current = (existing_comment or "").strip()
if not current: return MANAGED_MARKER
if MANAGED_MARKER in current: return current
return f"{current} | {MANAGED_MARKER}"
``` -/
def _compose_comment (existing_comment : Option String) : String :=
  let current := pyStrip (existing_comment.getD "")
  if current = "" then MANAGED_MARKER
  else if pyIn MANAGED_MARKER current then current
  else current ++ " | " ++ MANAGED_MARKER

/-! ### Record selection — `_pick_record`, `app/sync_engine.py` 28-29

`sorted(records, key=lambda r: str(r.get("id", "")))[0]`: Python's sort is
stable, so the result is the leftmost record whose id is minimal.
`pickMin` computes exactly that (a strictly smaller id replaces the
current candidate; ties keep the earlier record). -/

/-- Leftmost record with the lexicographically smallest `id`. -/
def pickMin (r : DNSRecord) : List DNSRecord → DNSRecord
  | [] => r
  | s :: rest => if s.id < r.id then pickMin s rest else pickMin r rest

/-- Embedding of `_pick_record` (total: `none` on the empty list, on which
the Python version would raise `IndexError`; the engine only calls it on
non-empty lists). -/
def _pick_record : List DNSRecord → Option DNSRecord
  | [] => none
  | r :: rs => some (pickMin r rs)

/-! ### Record Differ — the per-hostname decision, `app/sync_engine.py` 56-92 -/

/-- The action the engine decides for one hostname. -/
inductive Action where
  | create (proxied : Bool) (comment : String)
  | update (record_id : String) (ip : String) (proxied : Bool) (comment : String)
  | noop
deriving DecidableEq, Repr

/-- Embedding of the per-hostname decision in `sync_domains`
(lines 56-92): empty record list → create with the default `proxied` and
the marker as comment; otherwise pick the target record, and no-op iff its
`content` equals the desired ip and the composed comment equals the
stripped current comment, else update with the preserved `proxied` flag
and the composed comment. -/
def decide_action (public_ip : String) (default_proxied : Bool) :
    List DNSRecord → Action
  | [] => Action.create default_proxied MANAGED_MARKER
  | r :: rs =>
    let target := pickMin r rs
    let current_ip := target.content.getD ""
    let proxied := target.proxied.getD default_proxied
    let comment := _compose_comment target.comment
    if current_ip = public_ip ∧ comment = pyStrip (target.comment.getD "") then
      Action.noop
    else
      Action.update target.id public_ip proxied comment

/-! ### Zone Matcher — `find_best_zone_match`, `app/cloudflare_client.py` 98-111 -/

/-- The match test of line 106: `domain == zone_name or
domain.endswith("." + zone_name)` (applied to the lowercased zone name). -/
def zoneNameMatches (domain zone_name : String) : Bool :=
  domain == zone_name || pyEndsWith domain ("." ++ zone_name)

/-- One step of the best-match fold: skip zones with an empty (lowercased)
name or empty id; on a match, keep the candidate with the strictly greater
score (`score > best[0]`), so ties keep the earlier zone. -/
def bestZoneStep (domain : String) (best : Option (Nat × ZoneMatch)) (z : Zone) :
    Option (Nat × ZoneMatch) :=
  let zone_name := pyLower z.name
  if zone_name = "" ∨ z.id = "" then best
  else if zoneNameMatches domain zone_name then
    let score := zone_name.length
    let m : ZoneMatch := ⟨z.id, zone_name⟩
    match best with
    | none => some (score, m)
    | some (bs, bm) => if score > bs then some (score, m) else some (bs, bm)
  else best

/-- Embedding of `CloudflareClient.find_best_zone_match`. -/
def find_best_zone_match (domain : String) (zones : List Zone) : Option ZoneMatch :=
  (zones.foldl (bestZoneStep domain) none).map (·.2)

/-- A zone the matcher can select for `domain`: non-empty lowercased name,
non-empty id, and the hostname matches the lowercased zone name. -/
def zoneOk (domain : String) (z : Zone) : Prop :=
  pyLower z.name ≠ "" ∧ z.id ≠ "" ∧ zoneNameMatches domain (pyLower z.name) = true

/-! ### Provider environment and issued calls

`sync_domains` interacts with a `CloudflareClient`; its observable inputs
in one cycle are the zone list and the record listings, and its outputs
are the mutating calls.  The environment packages the inputs as pure
data; the engine result records every mutating call issued. -/

/-- Observable provider state for one cycle: `list_zones()`,
`list_a_records(zone_id, name)` and `list_a_records(zone_id)`. -/
structure CFEnv where
  zones : List Zone
  recordsByName : String → String → List DNSRecord
  allRecords : String → List DNSRecord

/-- Arguments of one `create_a_record` call. -/
structure CreateCall where
  zone_id : String
  name : String
  ip : String
  proxied : Bool
  comment : String
deriving DecidableEq, Repr

/-- Arguments of one `update_a_record` call. -/
structure UpdateCall where
  zone_id : String
  record_id : String
  name : String
  ip : String
  proxied : Bool
  comment : String
deriving DecidableEq, Repr

/-- Arguments of one `delete_record` call. -/
structure DeleteCall where
  zone_id : String
  record_id : String
deriving DecidableEq, Repr

/-- `SyncSummary` dataclass, `app/sync_engine.py` 10-16. -/
structure SyncSummary where
  creates : Nat
  updates : Nat
  noops : Nat
  deletes : Nat
  skipped : Nat
deriving DecidableEq, Repr

/-- Result of one engine cycle: the returned summary, the mutating calls
issued to the provider, and the number of multiple-record warnings. -/
structure SyncResult where
  summary : SyncSummary
  createCalls : List CreateCall
  updateCalls : List UpdateCall
  deleteCalls : List DeleteCall
  warnMulti : Nat
deriving Repr

/-! ### The engine — `sync_domains`, `app/sync_engine.py` 32-113 -/

/-- `sorted(domains)` where `domains` is a Python `set[str]` represented
here as a list: the sorted list of distinct elements (insertion sort, a
stable sort like Python's). -/
def sortedDedup (l : List String) : List String :=
  l.dedup.insertionSort (· ≤ ·)

/-- Line 56: fetch the hostname's records and keep those whose `name`
field equals the hostname. -/
def filteredRecords (env : CFEnv) (zone_id domain : String) : List DNSRecord :=
  (env.recordsByName zone_id domain).filter (fun r => r.name == some domain)

/-- One step of the zone-matching loop (lines 46-52): an unmatched
hostname increments `skipped`, a matched one is appended with its zone
id. -/
def matchStep (zones : List Zone) (acc : Nat × List (String × String)) (d : String) :
    Nat × List (String × String) :=
  match find_best_zone_match d zones with
  | none => (acc.1 + 1, acc.2)
  | some m => (acc.1, acc.2 ++ [(d, m.zone_id)])

/-- Lines 45-52: match every desired hostname (in sorted order) to a zone;
returns the `skipped` count and the matched `(domain, zone_id)` pairs in
order.  (`domain_to_zone` is a dict inserted in sorted key order and later
iterated in sorted key order, i.e. exactly this list.) -/
def matchedDomains (zones : List Zone) (ds : List String) : Nat × List (String × String) :=
  ds.foldl (matchStep zones) (0, [])

/-- Is the decided action a create? -/
def isCreate : Action → Bool
  | Action.create _ _ => true
  | _ => false

/-- Is the decided action an update? -/
def isUpdate : Action → Bool
  | Action.update _ _ _ _ => true
  | _ => false

/-- Is the decided action a no-op? -/
def isNoop : Action → Bool
  | Action.noop => true
  | _ => false

/-- The `create_a_record` call issued for a hostname whose action is a
create (lines 61-67), with `name` the hostname and `ip` the public ip. -/
def createOf (public_ip : String) (x : (String × String) × Action) : Option CreateCall :=
  match x.2 with
  | Action.create p c => some ⟨x.1.2, x.1.1, public_ip, p, c⟩
  | _ => none

/-- The `update_a_record` call issued for a hostname whose action is an
update (lines 85-92). -/
def updateOf (x : (String × String) × Action) : Option UpdateCall :=
  match x.2 with
  | Action.update rid uip p c => some ⟨x.1.2, rid, x.1.1, uip, p, c⟩
  | _ => none

/-- Lines 101-107: a record in a zone's full listing is a deletion
candidate iff its comment (read as `str(record.get("comment", ""))`)
contains the marker and its lowercased name is not a desired hostname. -/
def stale_candidates (desired : List String) (records : List DNSRecord) :
    List DNSRecord :=
  records.filter (fun r =>
    pyIn MANAGED_MARKER (r.comment.getD "") &&
      !(desired.contains (pyLower (r.name.getD ""))))

/-- Lines 94-111: the delete calls of the cleanup pass, in order — for
every zone with a non-empty id, the stale candidates of its full record
listing. -/
def pruneDeletes (desired : List String) (zones : List Zone) (env : CFEnv) :
    List DeleteCall :=
  (zones.filter (fun z => !(z.id == ""))).flatMap
    (fun z => (stale_candidates desired (env.allRecords z.id)).map
      (fun r => ⟨z.id, r.id⟩))

/-- Embedding of `sync_domains` (`app/sync_engine.py` 32-113).  The loop
bodies are expressed as list traversals: each matched hostname contributes
its decided action (lines 56-92), counters count the actions by kind, and
mutating calls are materialised unless `dry_run`.  The cleanup pass
(lines 94-111) appends the stale deletions. -/
def sync_domains (domains : List String) (public_ip : String)
    (default_proxied dry_run cleanup_stale : Bool) (env : CFEnv) : SyncResult :=
  let zones := env.zones
  let ds := sortedDedup domains
  let sm := matchedDomains zones ds
  let skipped := sm.1
  let matched := sm.2
  let acts := matched.map
    (fun dz => (dz, decide_action public_ip default_proxied (filteredRecords env dz.2 dz.1)))
  let creates := (acts.filter (fun x => isCreate x.2)).length
  let updates := (acts.filter (fun x => isUpdate x.2)).length
  let noops := (acts.filter (fun x => isNoop x.2)).length
  let createCalls := acts.filterMap (createOf public_ip)
  let updateCalls := acts.filterMap updateOf
  let warnMulti := (matched.filter (fun dz => 1 < (filteredRecords env dz.2 dz.1).length)).length
  let pruned := if cleanup_stale then pruneDeletes ds zones env else []
  { summary := ⟨creates, updates, noops, pruned.length, skipped⟩
    createCalls := if dry_run then [] else createCalls
    updateCalls := if dry_run then [] else updateCalls
    deleteCalls := if dry_run then [] else pruned
    warnMulti := warnMulti }

/-! ### Public-IP resolver — `resolve_public_ipv4`, `app/ip_resolver.py` 16-39 -/

/-- What one lookup endpoint observably yields: `failure` for any request
exception (connection error, timeout, non-2xx status via
`raise_for_status`), or the response body text. -/
inductive FetchResult where
  | err
  | ok (text : String)
deriving DecidableEq, Repr

/-- Value of one decimal digit character. -/
def digitVal (c : Char) : Nat := c.toNat - '0'.toNat

/-- Numeric value of a digit string. -/
def digitsVal (l : List Char) : Nat := l.foldl (fun acc c => acc * 10 + digitVal c) 0

/-- Split a character list on the dot character (Python `s.split(".")`). -/
def splitOnDot : List Char → List (List Char)
  | [] => [[]]
  | c :: t =>
    if c = '.' then [] :: splitOnDot t
    else
      match splitOnDot t with
      | [] => [[c]]
      | h :: r => (c :: h) :: r

/-- One dotted-quad octet as accepted by Python `ipaddress.IPv4Address`:
one to three decimal digits, no leading zero, value at most 255. -/
def validOctet (l : List Char) : Bool :=
  !l.isEmpty && decide (l.length ≤ 3) && l.all Char.isDigit &&
    (decide (l.length = 1) || decide (l.headD '0' ≠ '0')) &&
    decide (digitsVal l ≤ 255)

/-- Embedding of the acceptance of `ipaddress.IPv4Address(value)`:
exactly four octets separated by dots. -/
def is_ipv4 (s : String) : Bool :=
  match splitOnDot s.data with
  | [a, b, c, d] => validOctet a && validOctet b && validOctet c && validOctet d
  | _ => false

/-- Embedding of `resolve_public_ipv4`: walk the sources in order; a
request failure or a body that does not strip to an IPv4 address is
caught and skipped; the first stripped body that parses as IPv4 is
returned.  `none` models the final `RuntimeError`. -/
def resolve_public_ipv4 : List FetchResult → Option String
  | [] => none
  | FetchResult.err :: rest => resolve_public_ipv4 rest
  | FetchResult.ok t :: rest =>
    let value := pyStrip t
    if is_ipv4 value then some value else resolve_public_ipv4 rest

/-- An endpoint outcome that the resolver skips: a request failure or a
body whose stripped text is not an IPv4 address. -/
def badFetch : FetchResult → Bool
  | FetchResult.err => true
  | FetchResult.ok t => !is_ipv4 (pyStrip t)

/-! ## Lemmas about the string primitives -/

theorem dropWhile_cons_false {α : Type} {p : α → Bool} {c : α} {t : List α}
    (hc : p c = false) : List.dropWhile p (c :: t) = c :: t := by
  simp [List.dropWhile, hc]

theorem dropWhile_head_false {α : Type} {p : α → Bool} {l : List α} {c : α} {t : List α}
    (h : List.dropWhile p l = c :: t) : p c = false := by
  have hne : List.dropWhile p l ≠ [] := by simp [h]
  have hh := List.head_dropWhile_not p l hne
  simpa [h] using hh

theorem dropWhile_idem {α : Type} (p : α → Bool) (l : List α) :
    List.dropWhile p (List.dropWhile p l) = List.dropWhile p l := by
  cases h : List.dropWhile p l with
  | nil => simp
  | cons c t => exact dropWhile_cons_false (dropWhile_head_false h)

theorem stripList_prefix_dropWhile (l : List Char) :
    stripList l <+: List.dropWhile isWS l := by
  have h : List.dropWhile isWS (List.dropWhile isWS l).reverse <:+
      (List.dropWhile isWS l).reverse := List.dropWhile_suffix isWS
  have h2 : ((List.dropWhile isWS (List.dropWhile isWS l).reverse).reverse) <+:
      List.dropWhile isWS l := by
    refine List.reverse_suffix.mp ?_
    rw [List.reverse_reverse]
    exact h
  exact h2

theorem stripList_head_not_ws {l : List Char} {c : Char} {t : List Char}
    (h : stripList l = c :: t) : isWS c = false := by
  have hpre := stripList_prefix_dropWhile l
  rw [h] at hpre
  obtain ⟨s, hs⟩ := hpre
  have hd : List.dropWhile isWS l = c :: (t ++ s) := by rw [← hs]; rfl
  exact dropWhile_head_false hd

theorem dropWhile_stripList (l : List Char) :
    List.dropWhile isWS (stripList l) = stripList l := by
  cases h : stripList l with
  | nil => simp
  | cons c t => exact dropWhile_cons_false (stripList_head_not_ws h)

theorem stripList_reverse_drop (l : List Char) :
    (stripList l).reverse = List.dropWhile isWS (List.dropWhile isWS l).reverse := by
  unfold stripList
  rw [List.reverse_reverse]

theorem stripList_idem (l : List Char) : stripList (stripList l) = stripList l := by
  have h1 := dropWhile_stripList l
  show ((List.dropWhile isWS (stripList l)).reverse.dropWhile isWS).reverse = stripList l
  rw [h1, stripList_reverse_drop, dropWhile_idem, ← stripList_reverse_drop,
    List.reverse_reverse]

theorem stripList_eq_self {l : List Char} {c d : Char}
    (hh : l.head? = some c) (hc : isWS c = false)
    (hl : l.reverse.head? = some d) (hd : isWS d = false) :
    stripList l = l := by
  have h1 : List.dropWhile isWS l = l := by
    cases l with
    | nil => simp
    | cons a t =>
      have ha : a = c := by simpa using hh
      subst ha
      exact dropWhile_cons_false hc
  have h2 : List.dropWhile isWS l.reverse = l.reverse := by
    cases hrev : l.reverse with
    | nil => simp
    | cons e t' =>
      have he : e = d := by rw [hrev] at hl; simpa using hl
      subst he
      exact dropWhile_cons_false hd
  show ((List.dropWhile isWS l).reverse.dropWhile isWS).reverse = l
  rw [h1, h2, List.reverse_reverse]

theorem data_pyStrip (s : String) : (pyStrip s).data = stripList s.data := rfl

theorem mk_data_self (s : String) : (⟨s.data⟩ : String) = s := by cases s; rfl

theorem pyStrip_idem (s : String) : pyStrip (pyStrip s) = pyStrip s := by
  show (⟨stripList (pyStrip s).data⟩ : String) = pyStrip s
  rw [data_pyStrip, stripList_idem]
  rfl

theorem eq_empty_iff_data {s : String} : s = "" ↔ s.data = [] := by
  constructor
  · intro h; rw [h]
  · intro h
    have : (⟨s.data⟩ : String) = (⟨[]⟩ : String) := by rw [h]
    rw [mk_data_self] at this
    exact this

theorem isPrefixOf_self (l : List Char) : l.isPrefixOf l = true := by
  induction l with
  | nil => rfl
  | cons c t ih => simp [List.isPrefixOf, ih]

theorem containsSub_self (l : List Char) : containsSub l l = true := by
  cases l with
  | nil => rfl
  | cons c t => simp [containsSub, isPrefixOf_self]

theorem containsSub_append_right (needle l₁ l₂ : List Char)
    (h : containsSub needle l₂ = true) : containsSub needle (l₁ ++ l₂) = true := by
  induction l₁ with
  | nil => simpa using h
  | cons c t ih => simp [containsSub, ih]

/-! ## Lemmas about the Marker Composer -/

theorem compose_of_empty {x : Option String} (h : pyStrip (x.getD "") = "") :
    _compose_comment x = MANAGED_MARKER := by
  simp [_compose_comment, h]

theorem compose_of_marked {x : Option String} (h1 : pyStrip (x.getD "") ≠ "")
    (h2 : pyIn MANAGED_MARKER (pyStrip (x.getD "")) = true) :
    _compose_comment x = pyStrip (x.getD "") := by
  simp [_compose_comment, h1, h2]

theorem compose_of_unmarked {x : Option String} (h1 : pyStrip (x.getD "") ≠ "")
    (h2 : pyIn MANAGED_MARKER (pyStrip (x.getD "")) = false) :
    _compose_comment x = pyStrip (x.getD "") ++ " | " ++ MANAGED_MARKER := by
  simp [_compose_comment, h1, h2]

theorem pyStrip_data_ne {s : String} (h : pyStrip s ≠ "") : stripList s.data ≠ [] := by
  intro he
  exact h (eq_empty_iff_data.mpr (by rw [data_pyStrip, he]))

theorem pyStrip_marked_append {s : String} (h : pyStrip s ≠ "") :
    pyStrip (pyStrip s ++ " | " ++ MANAGED_MARKER) =
      pyStrip s ++ " | " ++ MANAGED_MARKER := by
  rw [String.append_assoc]
  have hne := pyStrip_data_ne h
  cases hct : stripList s.data with
  | nil => exact absurd hct hne
  | cons c t =>
    have hcws : isWS c = false := stripList_head_not_ws hct
    have hdata : (pyStrip s ++ (" | " ++ MANAGED_MARKER)).data =
        c :: (t ++ (" | " ++ MANAGED_MARKER).data) := by
      rw [String.data_append, data_pyStrip, hct]
      rfl
    have hh : (pyStrip s ++ (" | " ++ MANAGED_MARKER)).data.head? = some c := by
      rw [hdata]; rfl
    have hrev : (pyStrip s ++ (" | " ++ MANAGED_MARKER)).data.reverse.head? = some 'c' := by
      rw [String.data_append, List.reverse_append, List.head?_append]
      have hm : ((" | " ++ MANAGED_MARKER).data.reverse).head? = some 'c' := by decide
      rw [hm]
      rfl
    have hstrip : stripList (pyStrip s ++ (" | " ++ MANAGED_MARKER)).data =
        (pyStrip s ++ (" | " ++ MANAGED_MARKER)).data :=
      stripList_eq_self hh hcws hrev (by decide)
    show (⟨stripList (pyStrip s ++ (" | " ++ MANAGED_MARKER)).data⟩ : String) = _
    rw [hstrip, mk_data_self]

theorem pyIn_marker_append (s : String) :
    pyIn MANAGED_MARKER (s ++ " | " ++ MANAGED_MARKER) = true := by
  rw [String.append_assoc]
  show containsSub MANAGED_MARKER.data (s ++ (" | " ++ MANAGED_MARKER)).data = true
  rw [String.data_append, String.data_append, ← List.append_assoc]
  exact containsSub_append_right _ _ _ (containsSub_self _)

theorem append_marker_ne_empty {s : String} (h : pyStrip s ≠ "") :
    pyStrip s ++ " | " ++ MANAGED_MARKER ≠ "" := by
  rw [String.append_assoc]
  intro he
  have hd := eq_empty_iff_data.mp he
  rw [String.data_append] at hd
  exact pyStrip_data_ne h (by
    have := (List.append_eq_nil).mp hd
    rw [← data_pyStrip]
    exact this.1)

/-- If `s` is its own strip, is non-empty and contains the marker, then
composing on it returns it unchanged. -/
theorem compose_fixpoint {s : String} (h1 : pyStrip s = s) (h2 : s ≠ "")
    (h3 : pyIn MANAGED_MARKER s = true) : _compose_comment (some s) = s := by
  have e1 : pyStrip ((some s : Option String).getD "") ≠ "" := by
    show pyStrip s ≠ ""
    rw [h1]; exact h2
  have e2 : pyIn MANAGED_MARKER (pyStrip ((some s : Option String).getD "")) = true := by
    show pyIn MANAGED_MARKER (pyStrip s) = true
    rw [h1]; exact h3
  rw [compose_of_marked e1 e2]
  show pyStrip s = s
  exact h1

/-! ## Lemmas about the Record Differ -/

theorem decide_action_nil (ip : String) (dp : Bool) :
    decide_action ip dp [] = Action.create dp MANAGED_MARKER := rfl

theorem decide_action_cons (ip : String) (dp : Bool) (r : DNSRecord) (rs : List DNSRecord) :
    decide_action ip dp (r :: rs) =
      if (pickMin r rs).content.getD "" = ip ∧
          _compose_comment (pickMin r rs).comment =
            pyStrip ((pickMin r rs).comment.getD "") then
        Action.noop
      else
        Action.update (pickMin r rs).id ip ((pickMin r rs).proxied.getD dp)
          (_compose_comment (pickMin r rs).comment) := rfl

theorem decide_action_cons_ne_create (ip : String) (dp : Bool) (r : DNSRecord)
    (rs : List DNSRecord) (p : Bool) (c : String) :
    decide_action ip dp (r :: rs) ≠ Action.create p c := by
  rw [decide_action_cons]
  split <;> simp

theorem decide_action_update_eq {ip : String} {dp : Bool} {r : DNSRecord}
    {rs : List DNSRecord} {rid uip : String} {p : Bool} {c : String}
    (h : decide_action ip dp (r :: rs) = Action.update rid uip p c) :
    rid = (pickMin r rs).id ∧ uip = ip ∧ p = (pickMin r rs).proxied.getD dp ∧
      c = _compose_comment (pickMin r rs).comment := by
  rw [decide_action_cons] at h
  split at h
  · cases h
  · cases h
    exact ⟨rfl, rfl, rfl, rfl⟩

/-! ## Lemmas about the engine -/

theorem sortedDedup_length (l : List String) :
    (sortedDedup l).length = l.dedup.length :=
  (List.perm_insertionSort _ _).length_eq

theorem mem_sortedDedup {a : String} {l : List String} :
    a ∈ sortedDedup l ↔ a ∈ l :=
  (List.perm_insertionSort _ _).mem_iff.trans List.mem_dedup

theorem contains_sortedDedup (l : List String) (a : String) :
    (sortedDedup l).contains a = true ↔ a ∈ l :=
  Iff.trans List.elem_iff mem_sortedDedup

theorem matchedDomains_go (zones : List Zone) (ds : List String) :
    ∀ acc : Nat × List (String × String),
      (ds.foldl (matchStep zones) acc).1 + (ds.foldl (matchStep zones) acc).2.length =
        acc.1 + acc.2.length + ds.length := by
  induction ds with
  | nil => intro acc; simp
  | cons d t ih =>
    intro acc
    rw [List.foldl_cons, ih]
    unfold matchStep
    cases find_best_zone_match d zones <;> simp <;> omega

theorem matchedDomains_length (zones : List Zone) (ds : List String) :
    (matchedDomains zones ds).1 + (matchedDomains zones ds).2.length = ds.length := by
  unfold matchedDomains
  rw [matchedDomains_go]
  simp

theorem isCreate_create (p : Bool) (c : String) : isCreate (Action.create p c) = true := rfl

theorem isCreate_update (rid uip : String) (p : Bool) (c : String) :
    isCreate (Action.update rid uip p c) = false := rfl

theorem isCreate_noop : isCreate Action.noop = false := rfl

theorem isUpdate_create (p : Bool) (c : String) : isUpdate (Action.create p c) = false := rfl

theorem isUpdate_update (rid uip : String) (p : Bool) (c : String) :
    isUpdate (Action.update rid uip p c) = true := rfl

theorem isUpdate_noop : isUpdate Action.noop = false := rfl

theorem isNoop_create (p : Bool) (c : String) : isNoop (Action.create p c) = false := rfl

theorem isNoop_update (rid uip : String) (p : Bool) (c : String) :
    isNoop (Action.update rid uip p c) = false := rfl

theorem isNoop_noop : isNoop Action.noop = true := rfl

theorem filter_action_partition (l : List ((String × String) × Action)) :
    (l.filter (fun x => isCreate x.2)).length + (l.filter (fun x => isUpdate x.2)).length +
      (l.filter (fun x => isNoop x.2)).length = l.length := by
  induction l with
  | nil => rfl
  | cons x t ih =>
    cases hx : x.2 <;>
      simp [List.filter_cons, hx, isCreate_create, isCreate_update, isCreate_noop,
        isUpdate_create, isUpdate_update, isUpdate_noop, isNoop_create, isNoop_update,
        isNoop_noop] <;>
      omega

/-- The create call issued for a hostname is a function of whether its
filtered record list is empty. -/
theorem createOf_decide (ip : String) (dp : Bool) (dz : String × String)
    (records : List DNSRecord) :
    createOf ip (dz, decide_action ip dp records) =
      if records.isEmpty then
        some (⟨dz.2, dz.1, ip, dp, MANAGED_MARKER⟩ : CreateCall)
      else none := by
  cases records with
  | nil => rfl
  | cons r rs =>
    rw [decide_action_cons]
    by_cases hc : ((pickMin r rs).content.getD "" = ip ∧
        _compose_comment (pickMin r rs).comment = pyStrip ((pickMin r rs).comment.getD ""))
    · rw [if_pos hc]; rfl
    · rw [if_neg hc]; rfl

theorem isCreate_decide (ip : String) (dp : Bool) (records : List DNSRecord) :
    isCreate (decide_action ip dp records) = records.isEmpty := by
  cases records with
  | nil => rfl
  | cons r rs =>
    rw [decide_action_cons]
    by_cases hc : ((pickMin r rs).content.getD "" = ip ∧
        _compose_comment (pickMin r rs).comment = pyStrip ((pickMin r rs).comment.getD ""))
    · rw [if_pos hc]; rfl
    · rw [if_neg hc]; rfl

theorem filterMap_createOf (ip : String) (dp : Bool) (env : CFEnv)
    (l : List (String × String)) :
    (l.map (fun dz => (dz, decide_action ip dp (filteredRecords env dz.2 dz.1)))).filterMap
        (createOf ip) =
      (l.filter (fun dz => (filteredRecords env dz.2 dz.1).isEmpty)).map
        (fun dz => (⟨dz.2, dz.1, ip, dp, MANAGED_MARKER⟩ : CreateCall)) := by
  induction l with
  | nil => rfl
  | cons dz t ih =>
    cases hre : (filteredRecords env dz.2 dz.1).isEmpty <;>
      simp [List.filterMap_cons, List.filter_cons, createOf_decide, hre, ih]

theorem length_filter_isCreate (ip : String) (dp : Bool) (env : CFEnv)
    (l : List (String × String)) :
    ((l.map (fun dz => (dz, decide_action ip dp (filteredRecords env dz.2 dz.1)))).filter
        (fun x => isCreate x.2)).length =
      (l.filter (fun dz => (filteredRecords env dz.2 dz.1).isEmpty)).length := by
  induction l with
  | nil => rfl
  | cons dz t ih =>
    cases hre : (filteredRecords env dz.2 dz.1).isEmpty <;>
      simp [List.filter_cons, isCreate_decide, hre, ih]

/-! ## Lemmas about record selection -/

theorem pickMin_mem (r : DNSRecord) (rs : List DNSRecord) : pickMin r rs ∈ r :: rs := by
  induction rs generalizing r with
  | nil => simp [pickMin]
  | cons s rest ih =>
    simp only [pickMin]
    split
    · exact List.mem_cons_of_mem r (ih s)
    · rcases List.mem_cons.mp (ih r) with h1 | h2
      · exact List.mem_cons.mpr (Or.inl h1)
      · exact List.mem_cons_of_mem r (List.mem_cons_of_mem s h2)

theorem pickMin_le (r : DNSRecord) (rs : List DNSRecord) :
    ∀ s ∈ r :: rs, (pickMin r rs).id ≤ s.id := by
  induction rs generalizing r with
  | nil =>
    intro s hs
    rcases List.mem_cons.mp hs with h | h
    · rw [h]; simp [pickMin]
    · cases h
  | cons q rest ih =>
    intro s hs
    simp only [pickMin]
    split
    next hlt =>
      rcases List.mem_cons.mp hs with h | h
      · rw [h]
        exact le_trans (ih q q (List.mem_cons_self _ _)) (le_of_lt hlt)
      · exact ih q s h
    next hge =>
      rcases List.mem_cons.mp hs with h | h
      · rw [h]
        exact ih r r (List.mem_cons_self _ _)
      · rcases List.mem_cons.mp h with h2 | h2
        · rw [h2]
          exact le_trans (ih r r (List.mem_cons_self _ _)) (le_of_not_lt hge)
        · exact ih r s (List.mem_cons_of_mem r h2)

theorem pickMin_perm_eq {r r' : DNSRecord} {rs rs' : List DNSRecord}
    (hperm : (r :: rs).Perm (r' :: rs'))
    (hnodup : ((r :: rs).map DNSRecord.id).Nodup) :
    pickMin r rs = pickMin r' rs' := by
  have m1 := pickMin_mem r rs
  have m2 := pickMin_mem r' rs'
  have m2' : pickMin r' rs' ∈ r :: rs := hperm.mem_iff.mpr m2
  have le1 := pickMin_le r rs _ m2'
  have le2 := pickMin_le r' rs' _ (hperm.mem_iff.mp m1)
  exact List.inj_on_of_nodup_map hnodup m1 m2' (le_antisymm le1 le2)

/-! ## Lemmas about the Zone Matcher -/

theorem bestZoneStep_skip {domain : String} {z : Zone}
    (acc : Option (Nat × ZoneMatch)) (h : pyLower z.name = "" ∨ z.id = "") :
    bestZoneStep domain acc z = acc := by
  simp only [bestZoneStep]
  rw [if_pos h]

theorem bestZoneStep_not_ok {domain : String} {z : Zone}
    (acc : Option (Nat × ZoneMatch)) (h : ¬ zoneOk domain z) :
    bestZoneStep domain acc z = acc := by
  by_cases hsk : pyLower z.name = "" ∨ z.id = ""
  · exact bestZoneStep_skip acc hsk
  · rw [not_or] at hsk
    cases hx : zoneNameMatches domain (pyLower z.name) with
    | true => exact absurd ⟨hsk.1, hsk.2, hx⟩ h
    | false =>
      simp only [bestZoneStep]
      rw [if_neg (not_or.mpr hsk), if_neg (by simp [hx])]

theorem bestZoneStep_ok_none {domain : String} {z : Zone} (h : zoneOk domain z) :
    bestZoneStep domain none z =
      some ((pyLower z.name).length, ⟨z.id, pyLower z.name⟩) := by
  simp only [bestZoneStep]
  rw [if_neg (not_or.mpr ⟨h.1, h.2.1⟩), if_pos h.2.2]

theorem bestZoneStep_ok_some {domain : String} {z : Zone} {bs : Nat} {bm : ZoneMatch}
    (h : zoneOk domain z) :
    bestZoneStep domain (some (bs, bm)) z =
      if (pyLower z.name).length > bs then
        some ((pyLower z.name).length, ⟨z.id, pyLower z.name⟩)
      else some (bs, bm) := by
  simp only [bestZoneStep]
  rw [if_neg (not_or.mpr ⟨h.1, h.2.1⟩), if_pos h.2.2]

/-- Characterisation of the best-zone fold: starting from a well-formed
accumulator, the fold is `none` iff the accumulator was `none` and no zone
qualifies; a `some` result carries its zone-name length as score, comes
from the accumulator or from a qualifying zone, and dominates every
qualifying zone's name length and the accumulator's score. -/
theorem bestZone_fold_char (domain : String) (zs : List Zone) :
    ∀ acc : Option (Nat × ZoneMatch),
      (∀ s0 m0, acc = some (s0, m0) → s0 = m0.zone_name.length) →
      ((zs.foldl (bestZoneStep domain) acc = none ↔
          acc = none ∧ ∀ z ∈ zs, ¬ zoneOk domain z) ∧
        (∀ s m, zs.foldl (bestZoneStep domain) acc = some (s, m) →
          s = m.zone_name.length ∧
          (acc = some (s, m) ∨
            ∃ z ∈ zs, zoneOk domain z ∧ m = ⟨z.id, pyLower z.name⟩) ∧
          (∀ z ∈ zs, zoneOk domain z → (pyLower z.name).length ≤ s) ∧
          (∀ s0 m0, acc = some (s0, m0) → s0 ≤ s))) := by
  induction zs with
  | nil =>
    intro acc Hacc
    constructor
    · simp
    · intro s m hm
      rw [List.foldl_nil] at hm
      refine ⟨Hacc s m hm, Or.inl hm, by simp, ?_⟩
      intro s0 m0 h0
      rw [hm] at h0
      injection h0 with h1
      injection h1 with h2 h3
      subst h2
      exact le_refl _
  | cons z t ih =>
    intro acc Hacc
    rw [List.foldl_cons]
    by_cases hok : zoneOk domain z
    · cases hacc : acc with
      | none =>
        rw [bestZoneStep_ok_none hok]
        have Hacc2 : ∀ s0 m0,
            (some ((pyLower z.name).length, (⟨z.id, pyLower z.name⟩ : ZoneMatch)) :
              Option (Nat × ZoneMatch)) = some (s0, m0) →
            s0 = m0.zone_name.length := by
          intro s0 m0 h0
          injection h0 with h1
          injection h1 with h2 h3
          subst h2
          subst h3
          rfl
        obtain ⟨IH1, IH2⟩ := ih _ Hacc2
        constructor
        · constructor
          · intro h
            obtain ⟨h1, _⟩ := IH1.mp h
            cases h1
          · rintro ⟨_, hall⟩
            exact absurd hok (hall z (List.mem_cons_self _ _))
        · intro s m hm
          obtain ⟨hs, hprov, hmax, hbound⟩ := IH2 s m hm
          refine ⟨hs, ?_, ?_, ?_⟩
          · rcases hprov with h | ⟨z', hz', hok', he⟩
            · injection h with h1
              injection h1 with h2 h3
              exact Or.inr ⟨z, List.mem_cons_self _ _, hok, h3.symm⟩
            · exact Or.inr ⟨z', List.mem_cons_of_mem z hz', hok', he⟩
          · intro z' hz' hok'
            rcases List.mem_cons.mp hz' with h | h
            · rw [h]
              exact hbound _ _ rfl
            · exact hmax z' h hok'
          · intro s0 m0 h0
            cases h0
      | some p =>
        obtain ⟨bs, bm⟩ := p
        rw [bestZoneStep_ok_some hok]
        by_cases hgt : (pyLower z.name).length > bs
        · rw [if_pos hgt]
          have Hacc2 : ∀ s0 m0,
              (some ((pyLower z.name).length, (⟨z.id, pyLower z.name⟩ : ZoneMatch)) :
                Option (Nat × ZoneMatch)) = some (s0, m0) →
              s0 = m0.zone_name.length := by
            intro s0 m0 h0
            injection h0 with h1
            injection h1 with h2 h3
            subst h2
            subst h3
            rfl
          obtain ⟨IH1, IH2⟩ := ih _ Hacc2
          constructor
          · constructor
            · intro h
              obtain ⟨h1, _⟩ := IH1.mp h
              cases h1
            · rintro ⟨h1, _⟩
              cases h1
          · intro s m hm
            obtain ⟨hs, hprov, hmax, hbound⟩ := IH2 s m hm
            have hLs : (pyLower z.name).length ≤ s := hbound _ _ rfl
            refine ⟨hs, ?_, ?_, ?_⟩
            · rcases hprov with h | ⟨z', hz', hok', he⟩
              · injection h with h1
                injection h1 with h2 h3
                exact Or.inr ⟨z, List.mem_cons_self _ _, hok, h3.symm⟩
              · exact Or.inr ⟨z', List.mem_cons_of_mem z hz', hok', he⟩
            · intro z' hz' hok'
              rcases List.mem_cons.mp hz' with h | h
              · rw [h]
                exact hLs
              · exact hmax z' h hok'
            · intro s0 m0 h0
              injection h0 with h1
              injection h1 with h2 h3
              subst h2
              exact le_trans (le_of_lt hgt) hLs
        · rw [if_neg hgt]
          have Hacc2 : ∀ s0 m0,
              (some (bs, bm) : Option (Nat × ZoneMatch)) = some (s0, m0) →
              s0 = m0.zone_name.length := by
            intro s0 m0 h0
            injection h0 with h1
            injection h1 with h2 h3
            subst h2
            subst h3
            exact Hacc bs bm hacc
          obtain ⟨IH1, IH2⟩ := ih _ Hacc2
          constructor
          · constructor
            · intro h
              obtain ⟨h1, _⟩ := IH1.mp h
              cases h1
            · rintro ⟨h1, _⟩
              cases h1
          · intro s m hm
            obtain ⟨hs, hprov, hmax, hbound⟩ := IH2 s m hm
            have hbs : bs ≤ s := hbound _ _ rfl
            refine ⟨hs, ?_, ?_, ?_⟩
            · rcases hprov with h | ⟨z', hz', hok', he⟩
              · exact Or.inl h
              · exact Or.inr ⟨z', List.mem_cons_of_mem z hz', hok', he⟩
            · intro z' hz' hok'
              rcases List.mem_cons.mp hz' with h | h
              · rw [h]
                exact le_trans (le_of_not_lt hgt) hbs
              · exact hmax z' h hok'
            · intro s0 m0 h0
              injection h0 with h1
              injection h1 with h2 h3
              subst h2
              exact hbs
    · rw [bestZoneStep_not_ok acc hok]
      obtain ⟨IH1, IH2⟩ := ih acc Hacc
      constructor
      · rw [IH1]
        constructor
        · rintro ⟨ha, hall⟩
          refine ⟨ha, fun z' hz' => ?_⟩
          rcases List.mem_cons.mp hz' with h | h
          · rw [h]
            exact hok
          · exact hall z' h
        · rintro ⟨ha, hall⟩
          exact ⟨ha, fun z' hz' => hall z' (List.mem_cons_of_mem z hz')⟩
      · intro s m hm
        obtain ⟨hs, hprov, hmax, hbound⟩ := IH2 s m hm
        refine ⟨hs, ?_, ?_, hbound⟩
        · rcases hprov with h | ⟨z', hz', hok', he⟩
          · exact Or.inl h
          · exact Or.inr ⟨z', List.mem_cons_of_mem z hz', hok', he⟩
        · intro z' hz' hok'
          rcases List.mem_cons.mp hz' with h | h
          · rw [h] at hok'
            exact absurd hok' hok
          · exact hmax z' h hok'

/-! ## Claim theorems -/

/-- C4: the Marker Composer `_compose_comment` is idempotent —
`compose(compose(x)) = compose(x)` for every input `x` (including
`None`/empty, via the `Option` argument) — and its output always carries
the marker; a trimmed-empty comment yields the marker alone, a comment
already containing the marker is returned trimmed but otherwise unchanged,
and any other comment gets `" | "` plus the marker appended. -/
theorem C4_marker_composition_idempotent (x : Option String) :
    _compose_comment (some (_compose_comment x)) = _compose_comment x ∧
    pyIn MANAGED_MARKER (_compose_comment x) = true ∧
    (pyStrip (x.getD "") = "" → _compose_comment x = MANAGED_MARKER) ∧
    (pyStrip (x.getD "") ≠ "" → pyIn MANAGED_MARKER (pyStrip (x.getD "")) = true →
      _compose_comment x = pyStrip (x.getD "")) ∧
    (pyStrip (x.getD "") ≠ "" → pyIn MANAGED_MARKER (pyStrip (x.getD "")) = false →
      _compose_comment x = pyStrip (x.getD "") ++ " | " ++ MANAGED_MARKER) := by
  by_cases h1 : pyStrip (x.getD "") = ""
  · have hc := compose_of_empty h1
    refine ⟨?_, ?_, fun _ => hc, fun h => absurd h1 h, fun h => absurd h1 h⟩
    · rw [hc]
      exact compose_fixpoint (by decide) (by decide) (by decide)
    · rw [hc]
      decide
  · by_cases h2 : pyIn MANAGED_MARKER (pyStrip (x.getD "")) = true
    · have hc := compose_of_marked h1 h2
      refine ⟨?_, by rw [hc]; exact h2, fun h => absurd h h1, fun _ _ => hc,
        fun _ hf => by rw [h2] at hf; cases hf⟩
      rw [hc]
      exact compose_fixpoint (pyStrip_idem _) h1 h2
    · have h2f : pyIn MANAGED_MARKER (pyStrip (x.getD "")) = false := by
        revert h2
        cases pyIn MANAGED_MARKER (pyStrip (x.getD "")) <;> simp
      have hc := compose_of_unmarked h1 h2f
      refine ⟨?_, ?_, ?_, ?_, ?_⟩
      · rw [hc]
        exact compose_fixpoint (pyStrip_marked_append h1) (append_marker_ne_empty h1)
          (pyIn_marker_append _)
      · rw [hc]
        exact pyIn_marker_append _
      · exact fun h => absurd h h1
      · intro _ ht
        rw [h2f] at ht
        cases ht
      · exact fun _ _ => hc

/-- Witness for C4 at concrete inputs: idempotence on `" hello "`, and
the already-marked branch on a concrete marked comment. -/
theorem C4_marker_composition_idempotent_witness :
    _compose_comment (some (_compose_comment (some " hello "))) =
      _compose_comment (some " hello ") ∧
    _compose_comment (some (" hello " ++ MANAGED_MARKER)) =
      pyStrip (" hello " ++ MANAGED_MARKER) := by
  refine ⟨(C4_marker_composition_idempotent (some " hello ")).1, ?_⟩
  exact (C4_marker_composition_idempotent (some (" hello " ++ MANAGED_MARKER))).2.2.2.1
    (by decide) (by decide)

/-- C1 counterexample: the claim says NoOp requires the target's current
*raw* comment to equal the composed comment.  The code compares the
*stripped* comment (line 77): a record whose content already equals the
desired ip and whose comment is the marker with a leading space yields
NoOp, although its raw comment differs from the composed comment. -/
theorem C1_cex_raw_comment_strip :
    decide_action "1.2.3.4" false
      [⟨"r1", some "h.example.com", some "1.2.3.4", some false,
        some " managed-by=ddns-traefik-sync"⟩] = Action.noop ∧
    (some " managed-by=ddns-traefik-sync" : Option String).getD "" ≠
      _compose_comment (some " managed-by=ddns-traefik-sync") := by
  decide

/-- C1 (amended): for a hostname with at least one existing record the
differ decides NoOp iff the target's content equals the desired ip and
the composed comment equals the target's comment stripped of surrounding
whitespace; in every other case it decides Update carrying the new
address and the composed comment. -/
theorem C1_noop_update_boundary (ip : String) (dp : Bool) (r : DNSRecord)
    (rs : List DNSRecord) :
    (decide_action ip dp (r :: rs) = Action.noop ↔
      ((pickMin r rs).content.getD "" = ip ∧
        _compose_comment (pickMin r rs).comment =
          pyStrip ((pickMin r rs).comment.getD ""))) ∧
    (decide_action ip dp (r :: rs) = Action.noop ∨
      decide_action ip dp (r :: rs) =
        Action.update (pickMin r rs).id ip ((pickMin r rs).proxied.getD dp)
          (_compose_comment (pickMin r rs).comment)) := by
  rw [decide_action_cons]
  split
  next h => simp [h]
  next h => simp [h]

/-- C5: every desired hostname matched to a zone with zero existing A
records for that exact name yields exactly one create call, whose comment
is exactly the managed marker and whose `proxied` flag is the configured
default; the `creates` counter counts exactly those hostnames. -/
theorem C5_create_path (domains : List String) (ip : String) (dp cleanup : Bool)
    (env : CFEnv) :
    (sync_domains domains ip dp false cleanup env).createCalls =
      ((matchedDomains env.zones (sortedDedup domains)).2.filter
          (fun dz => (filteredRecords env dz.2 dz.1).isEmpty)).map
        (fun dz => (⟨dz.2, dz.1, ip, dp, MANAGED_MARKER⟩ : CreateCall)) ∧
    (sync_domains domains ip dp false cleanup env).summary.creates =
      ((matchedDomains env.zones (sortedDedup domains)).2.filter
          (fun dz => (filteredRecords env dz.2 dz.1).isEmpty)).length := by
  constructor
  · have h : (sync_domains domains ip dp false cleanup env).createCalls =
        ((matchedDomains env.zones (sortedDedup domains)).2.map
          (fun dz => (dz, decide_action ip dp (filteredRecords env dz.2 dz.1)))).filterMap
          (createOf ip) := rfl
    rw [h, filterMap_createOf]
  · have h : (sync_domains domains ip dp false cleanup env).summary.creates =
        (((matchedDomains env.zones (sortedDedup domains)).2.map
          (fun dz => (dz, decide_action ip dp (filteredRecords env dz.2 dz.1)))).filter
          (fun x => isCreate x.2)).length := rfl
    rw [h, length_filter_isCreate]

/-- C8: a dry run returns exactly the summary of the real run while
issuing no create, update or delete call to the provider. -/
theorem C8_dry_run_no_mutation (domains : List String) (ip : String)
    (dp cleanup : Bool) (env : CFEnv) :
    (sync_domains domains ip dp true cleanup env).summary =
      (sync_domains domains ip dp false cleanup env).summary ∧
    (sync_domains domains ip dp true cleanup env).createCalls = [] ∧
    (sync_domains domains ip dp true cleanup env).updateCalls = [] ∧
    (sync_domains domains ip dp true cleanup env).deleteCalls = [] :=
  ⟨rfl, rfl, rfl, rfl⟩

/-- C10: for every run, each distinct input domain lands in exactly one of
the `creates`, `updates`, `noops` or `skipped` counters, so their sum is
the number of distinct input domains (`deletes` counts pruned records
separately). -/
theorem C10_counter_partition (domains : List String) (ip : String)
    (dp dry cleanup : Bool) (env : CFEnv) :
    (sync_domains domains ip dp dry cleanup env).summary.creates +
      (sync_domains domains ip dp dry cleanup env).summary.updates +
      (sync_domains domains ip dp dry cleanup env).summary.noops +
      (sync_domains domains ip dp dry cleanup env).summary.skipped =
      domains.dedup.length := by
  have e1 : (sync_domains domains ip dp dry cleanup env).summary.creates =
      (((matchedDomains env.zones (sortedDedup domains)).2.map
        (fun dz => (dz, decide_action ip dp (filteredRecords env dz.2 dz.1)))).filter
        (fun x => isCreate x.2)).length := rfl
  have e2 : (sync_domains domains ip dp dry cleanup env).summary.updates =
      (((matchedDomains env.zones (sortedDedup domains)).2.map
        (fun dz => (dz, decide_action ip dp (filteredRecords env dz.2 dz.1)))).filter
        (fun x => isUpdate x.2)).length := rfl
  have e3 : (sync_domains domains ip dp dry cleanup env).summary.noops =
      (((matchedDomains env.zones (sortedDedup domains)).2.map
        (fun dz => (dz, decide_action ip dp (filteredRecords env dz.2 dz.1)))).filter
        (fun x => isNoop x.2)).length := rfl
  have e4 : (sync_domains domains ip dp dry cleanup env).summary.skipped =
      (matchedDomains env.zones (sortedDedup domains)).1 := rfl
  have hpart := filter_action_partition
    ((matchedDomains env.zones (sortedDedup domains)).2.map
      (fun dz => (dz, decide_action ip dp (filteredRecords env dz.2 dz.1))))
  have hlen := matchedDomains_length env.zones (sortedDedup domains)
  have hsd := sortedDedup_length domains
  rw [List.length_map] at hpart
  rw [e1, e2, e3, e4]
  omega

/-- C7 counterexample: with two *distinct* records sharing one id, the
selection is not invariant under permutation of the input list (Python's
stable sort keeps the first of the tied records), so the claim's
unconditional permutation-invariance fails. -/
theorem C7_cex_duplicate_ids :
    ([(⟨"r", some "a.example.com", none, none, none⟩ : DNSRecord),
       ⟨"r", some "b.example.com", none, none, none⟩].Perm
      [⟨"r", some "b.example.com", none, none, none⟩,
       ⟨"r", some "a.example.com", none, none, none⟩]) ∧
    pickMin (⟨"r", some "a.example.com", none, none, none⟩ : DNSRecord)
        [⟨"r", some "b.example.com", none, none, none⟩] ≠
      pickMin (⟨"r", some "b.example.com", none, none, none⟩ : DNSRecord)
        [⟨"r", some "a.example.com", none, none, none⟩] := by
  have hnlt : ¬ ("r" : String) < "r" := lt_irrefl _
  have hA : pickMin (⟨"r", some "a.example.com", none, none, none⟩ : DNSRecord)
      [⟨"r", some "b.example.com", none, none, none⟩] =
      ⟨"r", some "a.example.com", none, none, none⟩ := by
    simp only [pickMin]
    rw [if_neg hnlt]
  have hB : pickMin (⟨"r", some "b.example.com", none, none, none⟩ : DNSRecord)
      [⟨"r", some "a.example.com", none, none, none⟩] =
      ⟨"r", some "b.example.com", none, none, none⟩ := by
    simp only [pickMin]
    rw [if_neg hnlt]
  constructor
  · exact List.Perm.swap _ _ _
  · rw [hA, hB]
    decide

/-- C7 (amended): the engine's target selection `_pick_record` picks a
record of the list whose id string is lexicographically smallest, and —
provided the record ids are pairwise distinct — the selected record is the
same for every permutation of the list; a multiple-record warning is
surfaced exactly for the matched hostnames with more than one record. -/
theorem C7_deterministic_selection :
    (∀ (r : DNSRecord) (rs : List DNSRecord),
      _pick_record (r :: rs) = some (pickMin r rs) ∧
      pickMin r rs ∈ r :: rs ∧ ∀ s ∈ r :: rs, (pickMin r rs).id ≤ s.id) ∧
    (∀ (r r' : DNSRecord) (rs rs' : List DNSRecord),
      (r :: rs).Perm (r' :: rs') → ((r :: rs).map DNSRecord.id).Nodup →
      pickMin r rs = pickMin r' rs') ∧
    (∀ (domains : List String) (ip : String) (dp dry cleanup : Bool) (env : CFEnv),
      (sync_domains domains ip dp dry cleanup env).warnMulti =
        ((matchedDomains env.zones (sortedDedup domains)).2.filter
          (fun dz => 1 < (filteredRecords env dz.2 dz.1).length)).length) :=
  ⟨fun r rs => ⟨rfl, pickMin_mem r rs, pickMin_le r rs⟩,
   fun _ _ _ _ h hn => pickMin_perm_eq h hn,
   fun _ _ _ _ _ _ => rfl⟩

/-- Witness for C7 at the spec's example: with ids `"r1"` and `"r2"` the
same record (`"r1"`) is selected for both input orders. -/
theorem C7_deterministic_selection_witness :
    pickMin (⟨"r2", none, none, none, none⟩ : DNSRecord)
        [⟨"r1", none, none, none, none⟩] =
      pickMin (⟨"r1", none, none, none, none⟩ : DNSRecord)
        [⟨"r2", none, none, none, none⟩] ∧
    pickMin (⟨"r2", none, none, none, none⟩ : DNSRecord)
        [⟨"r1", none, none, none, none⟩] = ⟨"r1", none, none, none, none⟩ := by
  have hlt : ("r1" : String) < "r2" := by
    rw [String.lt_iff_toList_lt]
    decide
  refine ⟨C7_deterministic_selection.2.1 _ _ _ _ (List.Perm.swap _ _ _) (by decide), ?_⟩
  simp only [pickMin]
  rw [if_pos hlt]

/-- C6: on every Update the `proxied` flag carried by the action (and by
every update call the engine issues) is the existing target record's flag
when that field is present — never the configured default; the default
only enters when the record carries no `proxied` field. -/
theorem C6_update_preserves_proxied :
    (∀ (ip : String) (dp : Bool) (r : DNSRecord) (rs : List DNSRecord)
        (rid uip : String) (p : Bool) (c : String),
      decide_action ip dp (r :: rs) = Action.update rid uip p c →
        p = (pickMin r rs).proxied.getD dp ∧
        ∀ b, (pickMin r rs).proxied = some b → p = b) ∧
    (∀ (domains : List String) (ip : String) (dp cleanup : Bool) (env : CFEnv),
      ∀ u ∈ (sync_domains domains ip dp false cleanup env).updateCalls,
        ∃ dz ∈ (matchedDomains env.zones (sortedDedup domains)).2,
          ∃ r rs, filteredRecords env dz.2 dz.1 = r :: rs ∧
            u.proxied = (pickMin r rs).proxied.getD dp ∧
            ∀ b, (pickMin r rs).proxied = some b → u.proxied = b) := by
  constructor
  · intro ip dp r rs rid uip p c h
    have he := decide_action_update_eq h
    refine ⟨he.2.2.1, ?_⟩
    intro b hb
    rw [he.2.2.1, hb]
    rfl
  · intro domains ip dp cleanup env u hu
    have hu' : u ∈ ((matchedDomains env.zones (sortedDedup domains)).2.map
        (fun dz => (dz, decide_action ip dp (filteredRecords env dz.2 dz.1)))).filterMap
        updateOf := hu
    obtain ⟨x, hx, hxu⟩ := List.mem_filterMap.mp hu'
    obtain ⟨dz, hdz, rfl⟩ := List.mem_map.mp hx
    cases hrec : filteredRecords env dz.2 dz.1 with
    | nil =>
      rw [hrec] at hxu
      simp [updateOf, decide_action_nil] at hxu
    | cons r rs =>
      rw [hrec, decide_action_cons] at hxu
      split at hxu
      · simp [updateOf] at hxu
      · simp only [updateOf] at hxu
        cases hxu
        refine ⟨dz, hdz, r, rs, hrec, rfl, ?_⟩
        intro b hb
        show (pickMin r rs).proxied.getD dp = b
        rw [hb]
        rfl

/-- Witness for C6: a concrete update whose record carries
`proxied = some true` while the default is `false` keeps `true`. -/
theorem C6_update_preserves_proxied_witness :
    decide_action "1.2.3.4" false
        [⟨"r1", some "h.example.com", some "9.9.9.9", some true, some ""⟩] =
      Action.update "r1" "1.2.3.4" true MANAGED_MARKER ∧
    (true : Bool) =
      (pickMin (⟨"r1", some "h.example.com", some "9.9.9.9", some true, some ""⟩ :
        DNSRecord) []).proxied.getD false := by
  have hd : decide_action "1.2.3.4" false
      [⟨"r1", some "h.example.com", some "9.9.9.9", some true, some ""⟩] =
      Action.update "r1" "1.2.3.4" true MANAGED_MARKER := by decide
  have h := C6_update_preserves_proxied.1 "1.2.3.4" false
    ⟨"r1", some "h.example.com", some "9.9.9.9", some true, some ""⟩ []
    "r1" "1.2.3.4" true MANAGED_MARKER hd
  exact ⟨hd, h.1⟩

/-- C9: the public-IP resolver fails (returns `none`, modelling the final
`RuntimeError`) iff every endpoint fails or yields a non-IPv4 body; and it
returns the first stripped body that parses as IPv4, regardless of what
the later endpoints would return (they are never contacted). -/
theorem C9_resolver_first_success (results : List FetchResult) :
    (resolve_public_ipv4 results = none ↔ ∀ f ∈ results, badFetch f = true) ∧
    (∀ (pre : List FetchResult) (t : String) (post : List FetchResult),
      (∀ f ∈ pre, badFetch f = true) → is_ipv4 (pyStrip t) = true →
      resolve_public_ipv4 (pre ++ FetchResult.ok t :: post) = some (pyStrip t)) := by
  constructor
  · induction results with
    | nil => simp [resolve_public_ipv4]
    | cons f rest ih =>
      cases f with
      | err => simpa [resolve_public_ipv4, badFetch] using ih
      | ok t =>
        cases hv : is_ipv4 (pyStrip t) with
        | false => simpa [resolve_public_ipv4, badFetch, hv] using ih
        | true => simp [resolve_public_ipv4, badFetch, hv]
  · intro pre
    induction pre with
    | nil =>
      intro t post hpre hv
      simp [resolve_public_ipv4, hv]
    | cons f rest ih =>
      intro t post hpre hv
      have hf : badFetch f = true := hpre f (List.mem_cons_self _ _)
      have hrest : ∀ g ∈ rest, badFetch g = true :=
        fun g hg => hpre g (List.mem_cons_of_mem f hg)
      have htail := ih t post hrest hv
      cases f with
      | err => simpa [resolve_public_ipv4] using htail
      | ok s =>
        have hv2 : is_ipv4 (pyStrip s) = false := by
          simpa [badFetch] using hf
        simpa [resolve_public_ipv4, hv2] using htail

/-- Witness for C9: with a failing endpoint, a non-IPv4 body, then a valid
body with surrounding whitespace, the resolver returns the stripped third
body; and a run where every endpoint is bad returns `none`. -/
theorem C9_resolver_first_success_witness :
    resolve_public_ipv4
        [FetchResult.err, FetchResult.ok "<html>err</html>",
         FetchResult.ok " 203.0.113.7\n", FetchResult.ok "9.9.9.9"] =
      some (pyStrip " 203.0.113.7\n") ∧
    resolve_public_ipv4 [FetchResult.err, FetchResult.ok "not-an-ip"] = none := by
  constructor
  · exact (C9_resolver_first_success []).2
      [FetchResult.err, FetchResult.ok "<html>err</html>"]
      " 203.0.113.7\n" [FetchResult.ok "9.9.9.9"] (by decide) (by decide)
  · exact (C9_resolver_first_success
      [FetchResult.err, FetchResult.ok "not-an-ip"]).1.mpr (by decide)

/-- C2: with cleanup requested (and not a dry run), a delete call is
issued for a record iff its comment contains the managed marker and its
lowercased name is not a desired hostname: every marked, undesired record
of every zone (with a non-empty id) is deleted, and every issued delete
call corresponds to such a record — so a record lacking the marker is
never the source of a deletion, regardless of its name. -/
theorem C2_safe_pruning (domains : List String) (ip : String) (dp : Bool)
    (env : CFEnv) :
    (∀ z ∈ env.zones, z.id ≠ "" → ∀ r ∈ env.allRecords z.id,
      pyIn MANAGED_MARKER (r.comment.getD "") = true →
      (pyLower (r.name.getD "") ∉ domains) →
      (⟨z.id, r.id⟩ : DeleteCall) ∈
        (sync_domains domains ip dp false true env).deleteCalls) ∧
    (∀ c ∈ (sync_domains domains ip dp false true env).deleteCalls,
      ∃ z ∈ env.zones, z.id = c.zone_id ∧ ∃ r ∈ env.allRecords z.id,
        r.id = c.record_id ∧ pyIn MANAGED_MARKER (r.comment.getD "") = true ∧
        (pyLower (r.name.getD "") ∉ domains)) := by
  have hdel : (sync_domains domains ip dp false true env).deleteCalls =
      pruneDeletes (sortedDedup domains) env.zones env := rfl
  constructor
  · intro z hz hzid r hr hcom hname
    rw [hdel]
    unfold pruneDeletes
    refine List.mem_flatMap.mpr ⟨z, List.mem_filter.mpr ⟨hz, ?_⟩, ?_⟩
    · simp [hzid]
    · refine List.mem_map.mpr ⟨r, ?_, rfl⟩
      unfold stale_candidates
      refine List.mem_filter.mpr ⟨hr, ?_⟩
      have hcont : (sortedDedup domains).contains (pyLower (r.name.getD "")) = false := by
        cases hc : (sortedDedup domains).contains (pyLower (r.name.getD ""))
        · rfl
        · exact absurd ((contains_sortedDedup _ _).mp hc) hname
      rw [hcom, hcont]
      rfl
  · intro c hc
    rw [hdel] at hc
    unfold pruneDeletes at hc
    obtain ⟨z, hzf, hcm⟩ := List.mem_flatMap.mp hc
    obtain ⟨hz, _⟩ := List.mem_filter.mp hzf
    obtain ⟨r, hrf, hre⟩ := List.mem_map.mp hcm
    unfold stale_candidates at hrf
    obtain ⟨hr, hcond⟩ := List.mem_filter.mp hrf
    rw [Bool.and_eq_true] at hcond
    obtain ⟨h1, h2⟩ := hcond
    refine ⟨z, hz, ?_, r, hr, ?_, h1, ?_⟩
    · rw [← hre]
    · rw [← hre]
    · intro hmem
      have : (sortedDedup domains).contains (pyLower (r.name.getD "")) = true :=
        (contains_sortedDedup _ _).mpr hmem
      rw [this] at h2
      cases h2

/-- Witness for C2 at the spec's safe-pruning example: one marked stale
record and one unmarked record, empty desired set — only the marked
record's delete call is issued. -/
theorem C2_safe_pruning_witness :
    (⟨"z1", "r3"⟩ : DeleteCall) ∈
      (sync_domains [] "203.0.113.10" false false true
        ⟨[⟨"z1", "example.com"⟩], fun _ _ => [],
          fun _ => [⟨"r3", some "stale.example.com", none, none, some MANAGED_MARKER⟩,
                    ⟨"r4", some "other.example.com", none, none, some ""⟩]⟩).deleteCalls ∧
    (sync_domains [] "203.0.113.10" false false true
        ⟨[⟨"z1", "example.com"⟩], fun _ _ => [],
          fun _ => [⟨"r3", some "stale.example.com", none, none, some MANAGED_MARKER⟩,
                    ⟨"r4", some "other.example.com", none, none, some ""⟩]⟩).deleteCalls =
      [⟨"z1", "r3"⟩] := by
  constructor
  · exact (C2_safe_pruning [] "203.0.113.10" false
      ⟨[⟨"z1", "example.com"⟩], fun _ _ => [],
        fun _ => [⟨"r3", some "stale.example.com", none, none, some MANAGED_MARKER⟩,
                  ⟨"r4", some "other.example.com", none, none, some ""⟩]⟩).1
      ⟨"z1", "example.com"⟩ (by simp)
      (by decide)
      ⟨"r3", some "stale.example.com", none, none, some MANAGED_MARKER⟩ (by simp)
      (by decide) (by simp)
  · decide

/-- C3: under the data-model well-formedness of zones (non-empty opaque
ids, non-empty lowercase names), the Zone Matcher returns a match iff some
zone's name equals the hostname or the hostname ends with `"."` plus the
zone name (so no match yields `none`, not an error), and any returned
match is such a zone of maximal zone-name length. -/
theorem C3_zone_matcher (domain : String) (zones : List Zone)
    (hwf : ∀ z ∈ zones, z.id ≠ "" ∧ z.name ≠ "" ∧ pyLower z.name = z.name) :
    ((find_best_zone_match domain zones = none) ↔
      ∀ z ∈ zones, zoneNameMatches domain z.name = false) ∧
    (∀ m, find_best_zone_match domain zones = some m →
      (∃ z ∈ zones, z.id = m.zone_id ∧ z.name = m.zone_name ∧
        zoneNameMatches domain z.name = true) ∧
      ∀ z ∈ zones, zoneNameMatches domain z.name = true →
        z.name.length ≤ m.zone_name.length) := by
  have hchar := bestZone_fold_char domain zones none (by intro s0 m0 h0; cases h0)
  have hiff : ∀ z ∈ zones, (zoneOk domain z ↔ zoneNameMatches domain z.name = true) := by
    intro z hz
    obtain ⟨h1, h2, h3⟩ := hwf z hz
    unfold zoneOk
    rw [h3]
    constructor
    · exact fun h => h.2.2
    · exact fun h => ⟨h2, h1, h⟩
  constructor
  · unfold find_best_zone_match
    rw [Option.map_eq_none']
    rw [hchar.1]
    constructor
    · rintro ⟨_, hall⟩ z hz
      cases hx : zoneNameMatches domain z.name with
      | false => rfl
      | true => exact absurd ((hiff z hz).mpr hx) (hall z hz)
    · intro hall
      refine ⟨rfl, fun z hz hok => ?_⟩
      have hm := (hiff z hz).mp hok
      rw [hall z hz] at hm
      cases hm
  · intro m hm
    unfold find_best_zone_match at hm
    obtain ⟨p, hfold, hp⟩ := Option.map_eq_some'.mp hm
    obtain ⟨s, m'⟩ := p
    have hm' : m' = m := hp
    subst hm'
    obtain ⟨hs, hprov, hmax, _⟩ := hchar.2 s m' hfold
    constructor
    · rcases hprov with h | ⟨z, hz, hok, he⟩
      · cases h
      · obtain ⟨_, _, hz3⟩ := hwf z hz
        refine ⟨z, hz, ?_, ?_, (hiff z hz).mp hok⟩
        · rw [he]
        · rw [he]
          show z.name = pyLower z.name
          rw [hz3]
    · intro z hz hmat
      have hok := (hiff z hz).mpr hmat
      have hle := hmax z hz hok
      rw [(hwf z hz).2.2] at hle
      rw [hs] at hle
      exact hle

/-- Witness for C3 at the spec's example: zones `example.com` and
`sub.example.com`, hostname `a.sub.example.com` — the matcher selects
`sub.example.com`, and `example.com` (which also matches) has a
zone-name length bounded by the selected one. -/
theorem C3_zone_matcher_witness :
    find_best_zone_match "a.sub.example.com"
        [⟨"z1", "example.com"⟩, ⟨"z2", "sub.example.com"⟩] =
      some ⟨"z2", "sub.example.com"⟩ ∧
    ("example.com" : String).length ≤ ("sub.example.com" : String).length := by
  have hwf : ∀ z ∈ [(⟨"z1", "example.com"⟩ : Zone), ⟨"z2", "sub.example.com"⟩],
      z.id ≠ "" ∧ z.name ≠ "" ∧ pyLower z.name = z.name := by decide
  have h := C3_zone_matcher "a.sub.example.com"
    [⟨"z1", "example.com"⟩, ⟨"z2", "sub.example.com"⟩] hwf
  have hf : find_best_zone_match "a.sub.example.com"
      [⟨"z1", "example.com"⟩, ⟨"z2", "sub.example.com"⟩] =
      some ⟨"z2", "sub.example.com"⟩ := by decide
  refine ⟨hf, ?_⟩
  exact (h.2 ⟨"z2", "sub.example.com"⟩ hf).2 ⟨"z1", "example.com"⟩
    (by simp) (by decide)

end DDNS
